import Mathlib

/-!
Shallow embedding of the batch-api-tutorial pipeline
(`create_dataset.py`, `csv_to_jsonschema.py`) and proofs of the
specification claims about it.

Network responses are modelled as explicit data (status code plus a
structured payload); the external tokenizer (tiktoken) is modelled as an
oracle function carried in the environment, since its implementation is
not part of this repository.
-/

namespace BatchApi

/-! ### Identifier Resolver (`fetch_pmcid_from_pmid`) -/

/-- One record of the ID converter JSON response; only the presence and
value of the `pmcid` key matter to the code. -/
structure IdRecord where
  pmcid : Option String
deriving DecidableEq, Repr

/-- The ID converter HTTP response: status code and the `records` array
(`data.get('records', [])`). -/
structure IdConvResponse where
  status_code : Nat
  records : List IdRecord
deriving DecidableEq, Repr

/-- Embedding of `fetch_pmcid_from_pmid` (create_dataset.py, lines 11-20):
if the status is 200 and `records` is non-empty and the first record has a
`pmcid` key, return that value, else return `None`. -/
def fetch_pmcid_from_pmid (resp : IdConvResponse) : Option String :=
  if resp.status_code = 200 then
    match resp.records with
    | [] => none
    | r :: _ =>
      match r.pmcid with
      | some p => some p
      | none => none
  else
    none

/-! ### Document Fetcher (`fetch_article_text`) -/

/-- The raw XML payload of the content service, as the XML parser sees it:
either it fails to parse (`ET.ParseError`), or it parses and
`root.findall(".//passage/text")` yields a list of elements, each with an
optional text (`p.text` is `None` for an empty element). -/
inductive Payload where
  | malformed : Payload
  | parsed : List (Option String) → Payload
deriving DecidableEq, Repr

/-- The content service HTTP response. -/
structure ContentResponse where
  status_code : Nat
  content : Payload
deriving DecidableEq, Repr

/-- Embedding of `fetch_article_text` (create_dataset.py, lines 22-47).
Returns the extracted text (`none` models Python `None`) together with the
path of the raw-payload file when one is written.  On status 200 the file
`xml_content/<pmcid>.xml` is written before parsing is attempted; the text
is the join, by single spaces, of the truthy passage texts
(`" ".join([p.text for p in passages if p.text])`). -/
def fetch_article_text (pmcid : String) (resp : ContentResponse) :
    Option String × Option String :=
  if resp.status_code = 200 then
    let xml_file_path := "xml_content/" ++ pmcid ++ ".xml"
    match resp.content with
    | Payload.malformed => (none, some xml_file_path)
    | Payload.parsed passages =>
        (some (String.intercalate " "
          (passages.filterMap (fun t =>
            t.bind (fun s => if s = "" then none else some s)))),
         some xml_file_path)
  else
    (none, none)

/-! ### Record Builder and Dataset/Log Writer (`main`) -/

/-- One row of the input metadata table.  `pubmedId` is the row already
passed through `str(...)`; the year likewise (`str(row.get(...))`). -/
structure MetadataRow where
  pubmedId : String
  title : String
  journal : String
  year : String
  authors : String
  abstract : String
  accessibility : String
deriving DecidableEq, Repr

/-- One line of the audit log `pmcid_token_log.csv`
(`PMID,PMCID,TokenCount,Included`); `pmcidField` is the literal second
column, i.e. the resolved PMCID or the string "None". -/
structure AuditRow where
  pmid : String
  pmcidField : String
  tokenCount : Nat
  included : String
deriving DecidableEq, Repr

/-- One line of the dataset file `datasets/publication_dataset.jsonl`:
the task-record envelope with its two chat messages flattened out. -/
structure Entry where
  custom_id : String
  method : String
  url : String
  model : String
  system_content : String
  user_content : String
deriving DecidableEq, Repr

/-- The fixed system prompt (create_dataset.py, lines 98-108). -/
def system_content : String :=
  "You are an expert curation assistant who reviews biomedical publications to extract and classify key metadata attributes. \n\nYour task is to:\n1. Carefully read the publication content\n2. Identify all relevant metadata elements defined in the schema\n3. Select ONLY values from the provided controlled vocabularies in the schema\n4. Format your response as valid JSON matching the required schema\n5. For fields that allow multiple values, use comma-separated format if multiple values apply\n6. If you\x27re uncertain about a value, select the most appropriate option based on available evidence\n\nRespond only with the completed JSON metadata, properly formatted according to the schema."

/-- The user prompt template (create_dataset.py, lines 121-146), with the
schema string, row metadata, identifiers and fetched text interpolated. -/
def user_content (schema_str : String) (row : MetadataRow)
    (pmid pmcid article_text : String) : String :=
  "# Publication Metadata Extraction Task\n\n## Instructions\nPlease review the publication content and extract the following metadata according to the provided schema:\n1. Publication Assay - Select all applicable assays used in the research\n2. Publication Tumor Type - Select all applicable tumor types studied\n3. Publication Tissue - Select all applicable tissue types examined\n4. Publication Dataset Alias - Extract any mentioned dataset identifiers (e.g., GSE12345, DOI)\n\n## Schema\n"
    ++ schema_str
    ++ "\n\n## Publication Information\n- Title: " ++ row.title
    ++ "\n- Journal: " ++ row.journal
    ++ "\n- Year: " ++ row.year
    ++ "\n- Authors: " ++ row.authors
    ++ "\n- PMID: " ++ pmid
    ++ "\n- PMCID: " ++ pmcid
    ++ "\n\n## Abstract\n" ++ row.abstract
    ++ "\n\n## Full Publication Content\n" ++ article_text
    ++ "\n"

/-- The JSONL entry built for an accepted row
(create_dataset.py, lines 149-166). -/
def mkEntry (schema_str : String) (row : MetadataRow)
    (pmid pmcid article_text : String) : Entry :=
  { custom_id := "pub-" ++ pmid
    method := "POST"
    url := "/v1/chat/completions"
    model := "gpt-4o-mini"
    system_content := system_content
    user_content := user_content schema_str row pmid pmcid article_text }

/-- The run environment: the two remote services as response oracles, the
tokenizer (tiktoken, external to this repository) as a counting oracle,
and the serialized schema string `json.dumps(schema)`. -/
structure Env where
  idconv : String → IdConvResponse
  contentService : String → ContentResponse
  tokenizer : String → Nat
  schemaStr : String

/-- What one loop iteration of `main` produces: the audit-log line, the
optional dataset line, and the path of the raw XML file if one was saved. -/
structure RowOutcome where
  audit : AuditRow
  entry : Option Entry
  savedXml : Option String
deriving DecidableEq, Repr

/-- Embedding of one iteration of the loop in `main`
(create_dataset.py, lines 77-185): resolve the PMID, fetch the article
text, apply the 200,000-token gate, and produce the audit line plus the
optional dataset entry. -/
def processRow (env : Env) (row : MetadataRow) : RowOutcome :=
  let pmid := row.pubmedId
  match fetch_pmcid_from_pmid (env.idconv pmid) with
  | none =>
      { audit := ⟨pmid, "None", 0, "Error-NoPMCID"⟩, entry := none,
        savedXml := none }
  | some pmcid =>
      let fr := fetch_article_text pmcid (env.contentService pmcid)
      match fr.1 with
      | none =>
          { audit := ⟨pmid, pmcid, 0, "Error-NoText-or-XMLParseError"⟩,
            entry := none, savedXml := fr.2 }
      | some article_text =>
          if article_text = "" then
            { audit := ⟨pmid, pmcid, 0, "Error-NoText-or-XMLParseError"⟩,
              entry := none, savedXml := fr.2 }
          else
            let token_count := env.tokenizer article_text
            if token_count < 200000 then
              { audit := ⟨pmid, pmcid, token_count, "Yes"⟩,
                entry := some (mkEntry env.schemaStr row pmid pmcid article_text),
                savedXml := fr.2 }
            else
              { audit := ⟨pmid, pmcid, token_count, "No"⟩, entry := none,
                savedXml := fr.2 }

/-- Embedding of `main` (create_dataset.py, lines 54-185): filter the
table to rows whose accessibility is "Open Access", process each retained
row in order, and collect the audit-log lines and the dataset lines. -/
def main (env : Env) (rows : List MetadataRow) :
    List AuditRow × List Entry :=
  let open_access_df :=
    rows.filter (fun r => r.accessibility = "Open Access")
  let outcomes := open_access_df.map (fun r => processRow env r)
  (outcomes.map RowOutcome.audit, outcomes.filterMap RowOutcome.entry)

/-! ### Schema Compiler (`csv_to_jsonschema.py`) -/

/-- One row of the specification CSV, with the columns `Attribute,
Validation Rules, Description, Valid Values, Required` used by the code.
An empty CSV cell is read by pandas as NaN, modelled as `none`; the
Required cell is modelled as an optional boolean
(`pd.notna(row['Required']) and row['Required'] == True`). -/
structure SpecRow where
  attr : String
  validationRules : String
  description : String
  validValues : Option String
  required : Option Bool
deriving DecidableEq, Repr

/-- The allow-list `target_fields` (csv_to_jsonschema.py, lines 20-26). -/
def target_fields : List String :=
  ["Pubmed Id", "Publication Assay", "Publication Tumor Type",
   "Publication Tissue", "Publication Dataset Alias"]

/-- A schema property definition `{type, title, description, enum?,
items?}`; the nested `items` object is flattened to its `type` and
optional `enum` fields. -/
structure PropertyDef where
  type : String
  title : String
  description : String
  itemsType : Option String
  itemsEnum : Option (List String)
  enum : Option (List String)
deriving DecidableEq, Repr

/-- Python `str.replace(" ", "")` for the single-character pattern " ":
every space character is removed.  (Written as a structural recursion over
the character list so that concrete inputs evaluate inside the kernel.) -/
def removeSpaces (s : String) : String :=
  String.mk (s.data.filter (fun c => c != ' '))

/-- Python `str.split(',')` on the character list: split at every comma,
never merging; the empty string splits to `[""]`. -/
def splitCommas.go : List Char → List Char → List String
  | [], acc => [String.mk acc.reverse]
  | c :: cs, acc =>
      if c = ',' then String.mk acc.reverse :: splitCommas.go cs []
      else splitCommas.go cs (c :: acc)

/-- Python `str.split(',')`. -/
def splitCommas (s : String) : List String :=
  splitCommas.go s.data []

/-- The whitespace class of Python `str.strip()`. -/
def isPySpace (c : Char) : Bool :=
  c == ' ' || c == '\t' || c == '\n' || c == '\r' || c == '\x0b' || c == '\x0c'

/-- Python `str.strip()`: drop leading and trailing whitespace. -/
def strip (s : String) : String :=
  String.mk (((s.data.dropWhile isPySpace).reverse.dropWhile isPySpace).reverse)

/-- `[v.strip() for v in row['Valid Values'].split(',')]`:
comma-split then whitespace-trim each entry. -/
def splitValidValues (s : String) : List String :=
  (splitCommas s).map strip

/-- The property definition built for one retained specification row
(csv_to_jsonschema.py, lines 45-75): array-of-string when the validation
rule is the literal "list like", else scalar string; the enum list goes
under `items.enum` in the array case and at top level otherwise, and only
when the Valid Values cell is present. -/
def mkPropertyDef (row : SpecRow) : PropertyDef :=
  let is_array := row.validationRules = "list like"
  if is_array then
    { type := "array", title := row.attr,
      description := row.description,
      itemsType := some "string",
      itemsEnum := row.validValues.map splitValidValues,
      enum := none }
  else
    { type := "string", title := row.attr,
      description := row.description,
      itemsType := none, itemsEnum := none,
      enum := row.validValues.map splitValidValues }

/-- The schema document: the fixed header fields plus the insertion-ordered
`properties` mapping and the `required` list. -/
structure Schema where
  schemaUri : String
  type : String
  title : String
  description : String
  properties : List (String × PropertyDef)
  required : List String
deriving DecidableEq, Repr

/-- Python dict assignment `schema["properties"][k] = v`: overwrite in
place when the key exists, else append at the end. -/
def dictInsert (l : List (String × PropertyDef)) (k : String)
    (v : PropertyDef) : List (String × PropertyDef) :=
  match l with
  | [] => [(k, v)]
  | (k2, v2) :: rest =>
      if k2 = k then (k2, v) :: rest else (k2, v2) :: dictInsert rest k v

/-- One iteration of the population loop
(csv_to_jsonschema.py, lines 41-82). -/
def schemaStep (sch : Schema) (row : SpecRow) : Schema :=
  let property_key := removeSpaces row.attr
  let property_def := mkPropertyDef row
  let sch :=
    { sch with properties := dictInsert sch.properties property_key property_def }
  if row.required = some true then
    { sch with required := sch.required ++ [property_key] }
  else
    sch

/-- Embedding of `csv_to_json_schema` (csv_to_jsonschema.py, lines 5-84):
filter the rows to the allow-list, then fold the population loop over the
retained rows starting from the fixed skeleton. -/
def csv_to_json_schema (rows : List SpecRow) : Schema :=
  let filtered_df := rows.filter (fun r => r.attr ∈ target_fields)
  filtered_df.foldl schemaStep
    { schemaUri := "http://json-schema.org/draft-07/schema#",
      type := "object",
      title := "Publication Metadata Schema",
      description := "Schema for publication metadata with selected fields",
      properties := [], required := [] }

/-! ### Helper lemmas -/

/-- The truthiness filter `[p.text for p in passages if p.text]` keeps
exactly the present, non-empty texts. -/
theorem truthy_filterMap_eq_filter (ps : List (Option String)) :
    ps.filterMap (fun t => t.bind (fun s => if s = "" then none else some s)) =
      (ps.filterMap id).filter (fun s => s != "") := by
  induction ps with
  | nil => rfl
  | cons t ps ih =>
    cases t with
    | none => simpa using ih
    | some s =>
      by_cases h : s = "" <;>
        simp [List.filterMap_cons, List.filter_cons, h, ih]

/-- If every passage text is missing or empty, the truthiness filter
keeps nothing. -/
theorem truthy_filterMap_nil (ps : List (Option String))
    (h : ∀ t ∈ ps, t = none ∨ t = some "") :
    ps.filterMap (fun t => t.bind (fun s => if s = "" then none else some s)) = [] := by
  induction ps with
  | nil => rfl
  | cons t ps ih =>
    have ht := h t (List.mem_cons_self t ps)
    have hrest : ∀ u ∈ ps, u = none ∨ u = some "" :=
      fun u hu => h u (List.mem_cons_of_mem t hu)
    rcases ht with ht | ht <;> subst ht <;> simp [List.filterMap_cons, ih hrest]

/-- Every branch of `processRow` logs the row's own PMID. -/
theorem processRow_audit_pmid (env : Env) (row : MetadataRow) :
    (processRow env row).audit.pmid = row.pubmedId := by
  unfold processRow
  cases hp : fetch_pmcid_from_pmid (env.idconv row.pubmedId) with
  | none => simp [hp]
  | some pmcid =>
    cases ht : (fetch_article_text pmcid (env.contentService pmcid)).1 with
    | none => simp [hp, ht]
    | some t =>
      by_cases he : t = ""
      · simp [hp, ht, he]
      · by_cases hc : env.tokenizer t < 200000 <;> simp [hp, ht, he, hc]

/-- When `processRow` emits a dataset entry, its custom id is
`"pub-" ++ pmid`. -/
theorem processRow_entry_custom_id (env : Env) (row : MetadataRow)
    (e : Entry) (h : (processRow env row).entry = some e) :
    e.custom_id = "pub-" ++ row.pubmedId := by
  unfold processRow at h
  cases hp : fetch_pmcid_from_pmid (env.idconv row.pubmedId) with
  | none => simp [hp] at h
  | some pmcid =>
    cases ht : (fetch_article_text pmcid (env.contentService pmcid)).1 with
    | none => simp [hp, ht] at h
    | some t =>
      by_cases he : t = ""
      · simp [hp, ht, he] at h
      · by_cases hc : env.tokenizer t < 200000
        · simp [hp, ht, he, hc] at h
          subst h
          rfl
        · simp [hp, ht, he, hc] at h

/-- The status written by `processRow` is one of the four closed values. -/
theorem processRow_included_closed (env : Env) (row : MetadataRow) :
    (processRow env row).audit.included = "Yes" ∨
    (processRow env row).audit.included = "No" ∨
    (processRow env row).audit.included = "Error-NoPMCID" ∨
    (processRow env row).audit.included = "Error-NoText-or-XMLParseError" := by
  unfold processRow
  cases hp : fetch_pmcid_from_pmid (env.idconv row.pubmedId) with
  | none => simp [hp]
  | some pmcid =>
    cases ht : (fetch_article_text pmcid (env.contentService pmcid)).1 with
    | none => simp [hp, ht]
    | some t =>
      by_cases he : t = ""
      · simp [hp, ht, he]
      · by_cases hc : env.tokenizer t < 200000 <;> simp [hp, ht, he, hc]

/-- A dataset entry is emitted exactly when the logged status is `Yes`. -/
theorem processRow_entry_iff_yes (env : Env) (row : MetadataRow) :
    (processRow env row).entry.isSome ↔
      (processRow env row).audit.included = "Yes" := by
  unfold processRow
  cases hp : fetch_pmcid_from_pmid (env.idconv row.pubmedId) with
  | none => simp [hp]
  | some pmcid =>
    cases ht : (fetch_article_text pmcid (env.contentService pmcid)).1 with
    | none => simp [hp, ht]
    | some t =>
      by_cases he : t = ""
      · simp [hp, ht, he]
      · by_cases hc : env.tokenizer t < 200000 <;> simp [hp, ht, he, hc]

/-! ### Claims C3, C4, C5: resolver and fetcher -/

/-- C3, counterexample: the claim says a pmcid is returned whenever the
service responds with success status and AT LEAST ONE matching record
contains the field.  For the response with status 200 and records
`[{}, {pmcid: "PMC000001"}]`, a record does contain the field, yet the
code returns `None`, because it only inspects the first record. -/
theorem c3_counterexample :
    (IdConvResponse.mk 200 [⟨none⟩, ⟨some "PMC000001"⟩]).status_code = 200 ∧
    (∃ r ∈ (IdConvResponse.mk 200 [⟨none⟩, ⟨some "PMC000001"⟩]).records,
        r.pmcid.isSome) ∧
    fetch_pmcid_from_pmid ⟨200, [⟨none⟩, ⟨some "PMC000001"⟩]⟩ = none := by
  refine ⟨rfl, ⟨⟨some "PMC000001"⟩, by simp, rfl⟩, rfl⟩

/-- C3, amended: the resolver returns the pmcid of the FIRST record when
the service responds with success status (200) and that first record
contains the field; in every other case (non-success status, empty record
list, or first record without the field) it returns `None` — and, being a
total function of the response, it raises nothing to the caller. -/
theorem c3_first_record_resolution (resp : IdConvResponse) :
    fetch_pmcid_from_pmid resp =
      if resp.status_code = 200 then resp.records.head?.bind IdRecord.pmcid
      else none := by
  by_cases h200 : resp.status_code = 200 <;>
    simp only [fetch_pmcid_from_pmid, h200, if_true, if_false]
  cases h : resp.records with
  | nil => simp
  | cons r rs => cases hr : r.pmcid <;> simp [hr]

/-- C4, counterexample: the claim says the fetcher returns absent when the
payload contains no passages; in fact, for a status-200 response whose
payload parses to an empty passage list, the code returns the empty
string, not `None`. -/
theorem c4_counterexample :
    (fetch_article_text "PMC000001" ⟨200, Payload.parsed []⟩).1 = some "" ∧
    (fetch_article_text "PMC000001" ⟨200, Payload.parsed []⟩).1 ≠ none := by
  constructor
  · rfl
  · simp [fetch_article_text]

/-- C4, amended: on a successfully parsed payload the fetcher returns the
concatenation of all present, non-empty passage texts joined by single
spaces (the empty string when there are none); it returns absent (`None`)
exactly when the payload cannot be parsed. -/
theorem c4_passage_concatenation (pmcid : String) (resp : ContentResponse)
    (h200 : resp.status_code = 200) :
    (∀ ps, resp.content = Payload.parsed ps →
        (fetch_article_text pmcid resp).1 =
          some (String.intercalate " "
            ((ps.filterMap id).filter (fun s => s != "")))) ∧
    (resp.content = Payload.malformed →
        (fetch_article_text pmcid resp).1 = none) := by
  constructor
  · intro ps hps
    simp [fetch_article_text, h200, hps, truthy_filterMap_eq_filter]
  · intro hmal
    simp [fetch_article_text, h200, hmal]

/-- Witness for `c4_passage_concatenation` at a concrete response. -/
theorem c4_witness :
    (ContentResponse.mk 200
        (Payload.parsed [some "Hello", none, some "", some "world"])).status_code
      = 200 ∧
    (fetch_article_text "PMC7"
        ⟨200, Payload.parsed [some "Hello", none, some "", some "world"]⟩).1 =
      some (String.intercalate " "
        (([some "Hello", none, some "", some "world"].filterMap
            (fun x => id x)).filter (fun s => s != ""))) := by
  exact ⟨rfl,
    (c4_passage_concatenation "PMC7"
      ⟨200, Payload.parsed [some "Hello", none, some "", some "world"]⟩ rfl).1
      [some "Hello", none, some "", some "world"] rfl⟩

/-- C5: the raw payload file is written if and only if the transport
succeeds (status 200); on success it is written unconditionally, under the
name `xml_content/<pmcid>.xml`, even when the payload is malformed; on any
other status the fetcher returns absent and writes nothing. -/
theorem c5_file_write_iff_transport (pmcid : String) (resp : ContentResponse) :
    ((fetch_article_text pmcid resp).2 ≠ none ↔ resp.status_code = 200) ∧
    (resp.status_code = 200 →
      (fetch_article_text pmcid resp).2 =
        some ("xml_content/" ++ pmcid ++ ".xml")) ∧
    (resp.status_code ≠ 200 → fetch_article_text pmcid resp = (none, none)) := by
  by_cases h200 : resp.status_code = 200
  · cases hc : resp.content <;>
      simp [fetch_article_text, h200, hc]
  · simp [fetch_article_text, h200]

/-- Witness for `c5_file_write_iff_transport`: a malformed status-200
response still gets its file written, a status-404 response does not. -/
theorem c5_witness :
    ((fetch_article_text "PMC9" ⟨200, Payload.malformed⟩).2 =
        some ("xml_content/" ++ "PMC9" ++ ".xml")) ∧
    fetch_article_text "PMC9" ⟨404, Payload.malformed⟩ = (none, none) := by
  exact ⟨(c5_file_write_iff_transport "PMC9" ⟨200, Payload.malformed⟩).2.1 rfl,
    (c5_file_write_iff_transport "PMC9" ⟨404, Payload.malformed⟩).2.2 (by decide)⟩

/-! ### Schema compiler lemmas -/

/-- Key membership after a dict insertion. -/
theorem dictInsert_keys (l : List (String × PropertyDef)) (k : String)
    (v : PropertyDef) (k2 : String) :
    k2 ∈ (dictInsert l k v).map Prod.fst ↔
      (k2 = k ∨ k2 ∈ l.map Prod.fst) := by
  induction l with
  | nil => simp [dictInsert]
  | cons p rest ih =>
    obtain ⟨ka, va⟩ := p
    by_cases hk : ka = k
    · subst hk
      simp [dictInsert, List.mem_cons]
    · simp [dictInsert, hk, List.mem_cons, ih]
      tauto

/-- Every pair in a dict insertion comes from the old list or is the
inserted pair. -/
theorem dictInsert_mem_elim (l : List (String × PropertyDef)) (k k' : String)
    (v w : PropertyDef) (h : (k', w) ∈ dictInsert l k v) :
    (k', w) ∈ l ∨ (k' = k ∧ w = v) := by
  induction l with
  | nil =>
    simp only [dictInsert, List.mem_singleton] at h
    injection h with h1 h2
    exact Or.inr ⟨h1, h2⟩
  | cons p rest ih =>
    obtain ⟨k2, v2⟩ := p
    by_cases hk : k2 = k
    · subst hk
      simp only [dictInsert, if_pos rfl] at h
      rcases List.mem_cons.mp h with h | h
      · injection h with h1 h2
        exact Or.inr ⟨h1, h2⟩
      · exact Or.inl (List.mem_cons_of_mem _ h)
    · simp only [dictInsert, if_neg hk] at h
      rcases List.mem_cons.mp h with h | h
      · exact Or.inl (List.mem_cons.mpr (Or.inl h))
      · rcases ih h with h | h
        · exact Or.inl (List.mem_cons_of_mem _ h)
        · exact Or.inr h

/-- The properties of `schemaStep` are those of `dictInsert`. -/
theorem schemaStep_properties (sch : Schema) (row : SpecRow) :
    (schemaStep sch row).properties =
      dictInsert sch.properties (removeSpaces row.attr) (mkPropertyDef row) := by
  unfold schemaStep
  by_cases hr : row.required = some true <;> simp [hr]

/-- Key membership in the schema fold: a key is present exactly when the
accumulator already had it or some folded row produces it. -/
theorem foldl_schemaStep_key_mem (rows : List SpecRow) (sch : Schema)
    (k : String) :
    k ∈ (rows.foldl schemaStep sch).properties.map Prod.fst ↔
      (k ∈ sch.properties.map Prod.fst ∨
        ∃ r ∈ rows, k = removeSpaces r.attr) := by
  induction rows generalizing sch with
  | nil => simp
  | cons r rest ih =>
    simp only [List.foldl_cons]
    rw [ih, schemaStep_properties, dictInsert_keys]
    constructor
    · rintro ((h | h) | ⟨r2, hr2, hk⟩)
      · exact Or.inr ⟨r, List.mem_cons_self _ _, h⟩
      · exact Or.inl h
      · exact Or.inr ⟨r2, List.mem_cons_of_mem _ hr2, hk⟩
    · rintro (h | ⟨r2, hr2, hk⟩)
      · exact Or.inl (Or.inr h)
      · rcases List.mem_cons.mp hr2 with h2 | h2
        · subst h2
          exact Or.inl (Or.inl hk)
        · exact Or.inr ⟨r2, h2, hk⟩

/-- Every property value in the schema fold comes from the accumulator or
is `mkPropertyDef` of a folded row with the matching key. -/
theorem foldl_schemaStep_mem_elim (rows : List SpecRow) (sch : Schema)
    (k : String) (v : PropertyDef)
    (h : (k, v) ∈ (rows.foldl schemaStep sch).properties) :
    (k, v) ∈ sch.properties ∨
      ∃ r ∈ rows, k = removeSpaces r.attr ∧ v = mkPropertyDef r := by
  induction rows generalizing sch with
  | nil => exact Or.inl h
  | cons r rest ih =>
    simp only [List.foldl_cons] at h
    rcases ih _ h with h2 | ⟨r2, hr2, hk, hv⟩
    · rw [schemaStep_properties] at h2
      rcases dictInsert_mem_elim _ _ _ _ _ h2 with h3 | ⟨hk, hv⟩
      · exact Or.inl h3
      · exact Or.inr ⟨r, List.mem_cons_self _ _, hk, hv⟩
    · exact Or.inr ⟨r2, List.mem_cons_of_mem _ hr2, hk, hv⟩

/-- Every retained property value of `csv_to_json_schema` is
`mkPropertyDef` of some input row on the allow-list, keyed by that row's
attribute with spaces removed. -/
theorem csv_to_json_schema_mem_elim (rows : List SpecRow) (k : String)
    (v : PropertyDef) (h : (k, v) ∈ (csv_to_json_schema rows).properties) :
    ∃ r ∈ rows, r.attr ∈ target_fields ∧ k = removeSpaces r.attr ∧
      v = mkPropertyDef r := by
  unfold csv_to_json_schema at h
  rcases foldl_schemaStep_mem_elim _ _ _ _ h with h2 | ⟨r, hr, hk, hv⟩
  · simp at h2
  · rw [List.mem_filter] at hr
    exact ⟨r, hr.1, by simpa using hr.2, hk, hv⟩

/-! ### Claims C6, C8, C9: schema compiler -/

/-- A specification CSV containing one row per allow-listed attribute. -/
def c6Rows : List SpecRow :=
  [⟨"Pubmed Id", "", "", none, none⟩,
   ⟨"Publication Assay", "", "", none, none⟩,
   ⟨"Publication Tumor Type", "", "", none, none⟩,
   ⟨"Publication Tissue", "", "", none, none⟩,
   ⟨"Publication Dataset Alias", "", "", none, none⟩]

/-- C6, counterexample: the claim says the allow-list has exactly four
attribute names, so no input could ever yield more than four properties.
The code's allow-list has five entries — it also retains "Pubmed Id" — and
an input with one row per allow-listed attribute yields five properties. -/
theorem c6_counterexample :
    target_fields.length = 5 ∧
    (csv_to_json_schema c6Rows).properties.map Prod.fst =
      ["PubmedId", "PublicationAssay", "PublicationTumorType",
       "PublicationTissue", "PublicationDatasetAlias"] ∧
    (csv_to_json_schema c6Rows).properties.length = 5 := by
  refine ⟨rfl, ?_, ?_⟩ <;> rfl

/-- C6, amended: the Schema Compiler filters to a fixed allow-list of
exactly FIVE attribute names (`target_fields`, which includes
"Pubmed Id"), and for every input CSV the output schema's property keys
are exactly the allow-listed attributes present in the input, keyed by the
attribute name with spaces removed, and no others. -/
theorem c6_properties_allowlist (rows : List SpecRow) (k : String) :
    k ∈ (csv_to_json_schema rows).properties.map Prod.fst ↔
      ∃ r ∈ rows, r.attr ∈ target_fields ∧ k = removeSpaces r.attr := by
  unfold csv_to_json_schema
  rw [foldl_schemaStep_key_mem]
  simp only [List.map_nil, List.not_mem_nil, false_or, List.mem_filter,
    decide_eq_true_eq]
  constructor
  · rintro ⟨r, ⟨hr, hf⟩, hk⟩
    exact ⟨r, hr, hf, hk⟩
  · rintro ⟨r, hr, hf, hk⟩
    exact ⟨r, ⟨hr, hf⟩, hk⟩

/-- C8: every emitted property comes from a retained row, and it is
array-typed with string items exactly when that row's Validation Rules
cell is the literal "list like"; otherwise it is a scalar string. -/
theorem c8_array_iff_list_like (rows : List SpecRow) (k : String)
    (v : PropertyDef) (h : (k, v) ∈ (csv_to_json_schema rows).properties) :
    ∃ r ∈ rows, r.attr ∈ target_fields ∧ v = mkPropertyDef r ∧
      ((v.type = "array" ∧ v.itemsType = some "string") ↔
        r.validationRules = "list like") ∧
      (r.validationRules ≠ "list like" →
        v.type = "string" ∧ v.itemsType = none) := by
  obtain ⟨r, hr, hf, hk, hv⟩ := csv_to_json_schema_mem_elim rows k v h
  subst hv
  refine ⟨r, hr, hf, rfl, ?_, ?_⟩
  · by_cases hl : r.validationRules = "list like" <;>
      simp [mkPropertyDef, hl]
  · intro hl
    simp [mkPropertyDef, hl]

/-- The one-row specification used to witness C8. -/
def c8Row : SpecRow :=
  ⟨"Publication Assay", "list like", "assays used", none, none⟩

/-- Witness for `c8_array_iff_list_like` at a concrete one-row input. -/
theorem c8_witness :
    (("PublicationAssay", mkPropertyDef c8Row) ∈
        (csv_to_json_schema [c8Row]).properties) ∧
    ∃ r ∈ [c8Row], r.attr ∈ target_fields ∧
      mkPropertyDef c8Row = mkPropertyDef r ∧
      (((mkPropertyDef c8Row).type = "array" ∧
          (mkPropertyDef c8Row).itemsType = some "string") ↔
        r.validationRules = "list like") ∧
      (r.validationRules ≠ "list like" →
        (mkPropertyDef c8Row).type = "string" ∧
          (mkPropertyDef c8Row).itemsType = none) := by
  refine ⟨by decide, c8_array_iff_list_like [c8Row] "PublicationAssay"
    (mkPropertyDef c8Row) (by decide)⟩

/-- C9: every emitted property comes from an input row; when that row's
Valid Values cell is empty no enum appears anywhere, and when it is
present its comma-split, whitespace-trimmed entries are attached under
`items.enum` for an array-typed property but as a top-level `enum` for a
scalar one. -/
theorem c9_enum_placement (rows : List SpecRow) (k : String)
    (v : PropertyDef) (h : (k, v) ∈ (csv_to_json_schema rows).properties) :
    ∃ r ∈ rows, v = mkPropertyDef r ∧
      (r.validValues = none → v.enum = none ∧ v.itemsEnum = none) ∧
      (∀ s, r.validValues = some s →
        (v.type = "array" →
          v.itemsEnum = some (splitValidValues s) ∧ v.enum = none) ∧
        (v.type = "string" →
          v.enum = some (splitValidValues s) ∧ v.itemsEnum = none)) := by
  obtain ⟨r, hr, hf, hk, hv⟩ := csv_to_json_schema_mem_elim rows k v h
  subst hv
  refine ⟨r, hr, rfl, ?_, ?_⟩
  · intro hn
    by_cases hl : r.validationRules = "list like" <;>
      simp [mkPropertyDef, hl, hn]
  · intro s hs
    by_cases hl : r.validationRules = "list like"
    · constructor
      · intro _
        simp [mkPropertyDef, hl, hs]
      · intro htype
        simp [mkPropertyDef, hl] at htype
    · constructor
      · intro htype
        simp [mkPropertyDef, hl] at htype
      · intro _
        simp [mkPropertyDef, hl, hs]

/-- The one-row specification used to witness C9. -/
def c9Row : SpecRow :=
  ⟨"Publication Tissue", "str", "tissue", some "Tumor, Blood", none⟩

/-- Witness for `c9_enum_placement` at a concrete one-row input. -/
theorem c9_witness :
    (("PublicationTissue", mkPropertyDef c9Row) ∈
        (csv_to_json_schema [c9Row]).properties) ∧
    ∃ r ∈ [c9Row], mkPropertyDef c9Row = mkPropertyDef r ∧
      (r.validValues = none →
        (mkPropertyDef c9Row).enum = none ∧
          (mkPropertyDef c9Row).itemsEnum = none) ∧
      (∀ s, r.validValues = some s →
        ((mkPropertyDef c9Row).type = "array" →
          (mkPropertyDef c9Row).itemsEnum = some (splitValidValues s) ∧
            (mkPropertyDef c9Row).enum = none) ∧
        ((mkPropertyDef c9Row).type = "string" →
          (mkPropertyDef c9Row).enum = some (splitValidValues s) ∧
            (mkPropertyDef c9Row).itemsEnum = none)) := by
  refine ⟨by decide, c9_enum_placement [c9Row] "PublicationTissue"
    (mkPropertyDef c9Row) (by decide)⟩

/-! ### Claims C1, C2, C7, C10: the dataset pipeline -/

/-- C1: every processed row (accessibility "Open Access") yields exactly
one audit-log line, in input order; every status is one of the four closed
values; the dataset file holds the entries of exactly those processed rows
that produced one, and a row produces an entry if and only if its audit
status is `Yes`. -/
theorem c1_audit_invariant (env : Env) (rows : List MetadataRow) :
    ((main env rows).1 =
      (rows.filter (fun r => r.accessibility = "Open Access")).map
        (fun r => (processRow env r).audit)) ∧
    ((main env rows).2 =
      (rows.filter (fun r => r.accessibility = "Open Access")).filterMap
        (fun r => (processRow env r).entry)) ∧
    (∀ row : MetadataRow,
      ((processRow env row).audit.included = "Yes" ∨
       (processRow env row).audit.included = "No" ∨
       (processRow env row).audit.included = "Error-NoPMCID" ∨
       (processRow env row).audit.included = "Error-NoText-or-XMLParseError") ∧
      ((processRow env row).entry.isSome ↔
        (processRow env row).audit.included = "Yes")) := by
  refine ⟨?_, ?_, fun row =>
    ⟨processRow_included_closed env row, processRow_entry_iff_yes env row⟩⟩
  · simp [main, List.map_map]
  · simp only [main, List.filterMap_map]
    rfl

/-- C2: for a processed row whose document was resolved, fetched and
parsed to non-empty text, the 200,000-token gate decides inclusion: at or
above the threshold the audit status is `No` and no dataset entry is
produced; below it the status is `Yes`, the logged token count is the
text's token count, and the entry's custom id is `"pub-" ++ pmid`. -/
theorem c2_token_gate (env : Env) (row : MetadataRow) (pmcid t : String)
    (hp : fetch_pmcid_from_pmid (env.idconv row.pubmedId) = some pmcid)
    (ht : (fetch_article_text pmcid (env.contentService pmcid)).1 = some t)
    (hne : t ≠ "") :
    (200000 ≤ env.tokenizer t →
      (processRow env row).audit =
        ⟨row.pubmedId, pmcid, env.tokenizer t, "No"⟩ ∧
      (processRow env row).entry = none) ∧
    (env.tokenizer t < 200000 →
      (processRow env row).audit =
        ⟨row.pubmedId, pmcid, env.tokenizer t, "Yes"⟩ ∧
      ∃ e, (processRow env row).entry = some e ∧
        e.custom_id = "pub-" ++ row.pubmedId) := by
  constructor
  · intro hge
    have hc : ¬ env.tokenizer t < 200000 := not_lt.mpr hge
    simp [processRow, hp, ht, hne, hc]
  · intro hc
    refine ⟨by simp [processRow, hp, ht, hne, hc], ?_⟩
    refine ⟨mkEntry env.schemaStr row row.pubmedId pmcid t, ?_, rfl⟩
    simp [processRow, hp, ht, hne, hc]

/-- The concrete environment used by the pipeline witnesses: PMID
"12345" resolves to "PMC000001", whose document has one passage
"Hello world" and counts 500 tokens. -/
def wEnv : Env :=
  { idconv := fun _ => ⟨200, [⟨some "PMC000001"⟩]⟩
    contentService := fun _ => ⟨200, Payload.parsed [some "Hello world"]⟩
    tokenizer := fun _ => 500
    schemaStr := "SCHEMA" }

/-- The concrete open-access metadata row used by the pipeline
witnesses. -/
def wRow : MetadataRow :=
  ⟨"12345", "T", "J", "2020", "A", "Ab", "Open Access"⟩

/-- Witness for `c2_token_gate`: with 500 tokens the row is included with
custom id "pub-12345". -/
theorem c2_witness :
    fetch_pmcid_from_pmid (wEnv.idconv wRow.pubmedId) = some "PMC000001" ∧
    (fetch_article_text "PMC000001" (wEnv.contentService "PMC000001")).1 =
      some "Hello world" ∧
    ("Hello world" : String) ≠ "" ∧
    (wEnv.tokenizer "Hello world" < 200000 →
      (processRow wEnv wRow).audit =
        ⟨wRow.pubmedId, "PMC000001", wEnv.tokenizer "Hello world", "Yes"⟩ ∧
      ∃ e, (processRow wEnv wRow).entry = some e ∧
        e.custom_id = "pub-" ++ wRow.pubmedId) := by
  exact ⟨rfl, rfl, by decide,
    (c2_token_gate wEnv wRow "PMC000001" "Hello world" rfl rfl
      (by decide)).2⟩

/-- C7: only open-access rows are processed — every audit-log line is the
outcome of some input row whose accessibility is "Open Access" and carries
that row's PMID, and every dataset line's custom id names the PMID of some
open-access input row. -/
theorem c7_open_access_only (env : Env) (rows : List MetadataRow) :
    (∀ a ∈ (main env rows).1, ∃ r ∈ rows,
      r.accessibility = "Open Access" ∧ a = (processRow env r).audit ∧
      a.pmid = r.pubmedId) ∧
    (∀ e ∈ (main env rows).2, ∃ r ∈ rows,
      r.accessibility = "Open Access" ∧
      e.custom_id = "pub-" ++ r.pubmedId) := by
  constructor
  · intro a ha
    simp only [main, List.mem_map] at ha
    obtain ⟨r, ⟨r0, hr0, hpr⟩, ha⟩ := ha
    subst hpr
    rw [List.mem_filter] at hr0
    refine ⟨r0, hr0.1, by simpa using hr0.2, ha.symm, ?_⟩
    rw [← ha]
    exact processRow_audit_pmid env r0
  · intro e he
    simp only [main, List.mem_filterMap, List.mem_map] at he
    obtain ⟨r, ⟨r0, hr0, hpr⟩, he⟩ := he
    subst hpr
    rw [List.mem_filter] at hr0
    exact ⟨r0, hr0.1, by simpa using hr0.2,
      processRow_entry_custom_id env r0 e he⟩

/-- Witness for `c7_open_access_only` at a concrete run of one
open-access row. -/
theorem c7_witness :
    ((processRow wEnv wRow).audit ∈ (main wEnv [wRow]).1) ∧
    ∃ r ∈ [wRow], r.accessibility = "Open Access" ∧
      (processRow wEnv wRow).audit = (processRow wEnv r).audit ∧
      (processRow wEnv wRow).audit.pmid = r.pubmedId := by
  refine ⟨?_, (c7_open_access_only wEnv [wRow]).1
    (processRow wEnv wRow).audit ?_⟩ <;>
    simp [main, wRow, List.mem_filter]

/-- C10: when the content service succeeds and the payload parses but no
passage has non-empty text, the fetcher returns the empty string (not
`None`), and the pipeline logs the row as a fetch failure
(`Error-NoText-or-XMLParseError`, token count 0), produces no dataset
entry, and still persists the raw payload to `xml_content/<pmcid>.xml`. -/
theorem c10_empty_passages (env : Env) (row : MetadataRow) (pmcid : String)
    (ps : List (Option String))
    (hp : fetch_pmcid_from_pmid (env.idconv row.pubmedId) = some pmcid)
    (h200 : (env.contentService pmcid).status_code = 200)
    (hps : (env.contentService pmcid).content = Payload.parsed ps)
    (hempty : ∀ t ∈ ps, t = none ∨ t = some "") :
    (fetch_article_text pmcid (env.contentService pmcid)).1 = some "" ∧
    (processRow env row).audit =
      ⟨row.pubmedId, pmcid, 0, "Error-NoText-or-XMLParseError"⟩ ∧
    (processRow env row).entry = none ∧
    (processRow env row).savedXml =
      some ("xml_content/" ++ pmcid ++ ".xml") := by
  have htext : (fetch_article_text pmcid (env.contentService pmcid)).1 =
      some "" := by
    simp only [fetch_article_text, h200, if_true, hps,
      truthy_filterMap_nil ps hempty]
    rfl
  have hfile : (fetch_article_text pmcid (env.contentService pmcid)).2 =
      some ("xml_content/" ++ pmcid ++ ".xml") := by
    simp [fetch_article_text, h200, hps]
  refine ⟨htext, ?_, ?_, ?_⟩ <;> simp [processRow, hp, htext, hfile]

/-- The environment used to witness C10: the document of "PMC000001"
parses to one absent text and one empty text. -/
def w10Env : Env :=
  { idconv := fun _ => ⟨200, [⟨some "PMC000001"⟩]⟩
    contentService := fun _ => ⟨200, Payload.parsed [none, some ""]⟩
    tokenizer := fun _ => 500
    schemaStr := "SCHEMA" }

/-- Witness for `c10_empty_passages` at a concrete run. -/
theorem c10_witness :
    fetch_pmcid_from_pmid (w10Env.idconv wRow.pubmedId) = some "PMC000001" ∧
    (w10Env.contentService "PMC000001").status_code = 200 ∧
    (w10Env.contentService "PMC000001").content =
      Payload.parsed [none, some ""] ∧
    ((fetch_article_text "PMC000001"
        (w10Env.contentService "PMC000001")).1 = some "" ∧
      (processRow w10Env wRow).audit =
        ⟨wRow.pubmedId, "PMC000001", 0, "Error-NoText-or-XMLParseError"⟩ ∧
      (processRow w10Env wRow).entry = none ∧
      (processRow w10Env wRow).savedXml =
        some ("xml_content/" ++ "PMC000001" ++ ".xml")) := by
  exact ⟨rfl, rfl, rfl,
    c10_empty_passages w10Env wRow "PMC000001" [none, some ""] rfl rfl rfl
      (by decide)⟩

end BatchApi
